import Mathlib

/-!
Verification of the market-system repository (Go) against its
natural-language specification.

Shallow embedding conventions:
* Go `float64` prices, amounts and volumes are modelled by `ℚ`;
  the verified claims only use comparison and single additions, where
  rational arithmetic agrees with the care the code takes.
* Millisecond timestamps (`int64`) are modelled by `Int`.
* Go `nil` pointers become `Option`.
* `time.Now().UnixMilli()` becomes an explicit `now : Int` argument.
* `sort.Slice` with a strict comparator is modelled by
  `List.insertionSort` over the corresponding non-strict relation;
  the claims about sorting only concern sortedness of the output.
* Go maps are modelled by association lists (`List (key × value)`),
  map iteration by folds over the stored entries.
* Calendar arithmetic of `time.Date` is modelled for fixed-offset
  timezones: a location is an offset `off : Int` in milliseconds, and
  local calendar fields are derived from `t + off` by Euclidean
  division, which matches Go for every fixed-offset location.
-/

namespace MarketSystem

/- ===== common/constants/constants.go ===== -/

def DataTypeTicker : String := "ticker"
def DataTypeDepth : String := "depth"
def DataTypeTrade : String := "trade"
def DataTypeKline : String := "kline"

def RedisKeyTicker : String := "ticker:"
def RedisKeyDepth : String := "depth:"
def RedisKeyKline : String := "kline:"
def RedisKeyTrade : String := "trade:"
def RedisChannelMarket : String := "market:"

def MaxSubscriptionsPerConn : Nat := 20
def MaxDepthLevel : Nat := 100

def SourceInternal : String := "internal"
def SourceExternal : String := "external"
def SourceMerged : String := "merged"

def ModeInternalOnly : String := "INTERNAL_ONLY"
def ModeExternalOnly : String := "EXTERNAL_ONLY"
def ModeHybrid : String := "HYBRID"

def MergeStrategyPriority : String := "priority"
def MergeStrategySupplement : String := "supplement"

/-- `DataFreshnessThreshold = 5 * Second` (milliseconds). -/
def DataFreshnessThreshold : Int := 5000

/- ===== common/models/market.go ===== -/

structure Ticker where
  symbol : String
  lastPrice : ℚ
  bidPrice : ℚ
  askPrice : ℚ
  high24h : ℚ
  low24h : ℚ
  volume24h : ℚ
  timestamp : Int
  deriving Repr, DecidableEq

structure PriceLevel where
  price : ℚ
  amount : ℚ
  deriving Repr, DecidableEq

structure OrderBook where
  symbol : String
  bids : List PriceLevel
  asks : List PriceLevel
  timestamp : Int
  deriving Repr, DecidableEq

structure Trade where
  symbol : String
  tradeID : String
  price : ℚ
  amount : ℚ
  side : String
  timestamp : Int
  deriving Repr, DecidableEq

structure Kline where
  symbol : String
  interval : String
  openTime : Int
  closeTime : Int
  openPrice : ℚ
  high : ℚ
  low : ℚ
  closePrice : ℚ
  volume : ℚ
  quoteVol : ℚ
  tradeNum : Int
  deriving Repr, DecidableEq

structure PriceLevelWithSource where
  price : ℚ
  amount : ℚ
  source : String
  deriving Repr, DecidableEq

structure OrderBookWithSource where
  symbol : String
  bids : List PriceLevelWithSource
  asks : List PriceLevelWithSource
  internalBidsCount : Nat
  externalBidsCount : Nat
  internalAsksCount : Nat
  externalAsksCount : Nat
  timestamp : Int
  deriving Repr, DecidableEq

structure TickerWithSource where
  symbol : String
  lastPrice : ℚ
  lastPriceSource : String
  bidPrice : ℚ
  askPrice : ℚ
  high24h : ℚ
  low24h : ℚ
  internalVolume24h : ℚ
  externalVolume24h : ℚ
  totalVolume24h : ℚ
  timestamp : Int
  deriving Repr, DecidableEq

structure SymbolConfig where
  symbol : String
  mode : String
  primarySource : String
  externalSource : String
  mergeStrategy : String
  enable : Bool
  deriving Repr, DecidableEq

/-- `MarketData.Data` is `interface{}` in Go; a tagged sum models the
dynamic payload.  The `type` field of `MarketData` stays separate, as in
the source, where `cacheData` re-checks the dynamic type. -/
inductive Payload where
  | ticker : Ticker → Payload
  | depth : OrderBook → Payload
  | trade : Trade → Payload
  | kline : Kline → Payload
  | tickerWS : TickerWithSource → Payload
  | depthWS : OrderBookWithSource → Payload
  deriving Repr, DecidableEq

structure MarketData where
  exchange : String
  symbol : String
  type : String
  source : String
  timestamp : Int
  data : Payload
  deriving Repr, DecidableEq

/- ===== services/collector/internal/merger/merger.go ===== -/

/-- `CachedData` of the fusion engine: one timestamp for the whole side. -/
structure CachedData where
  ticker : Option Ticker
  depth : Option OrderBook
  trades : List Trade
  timestamp : Int
  deriving Repr, DecidableEq

/-- Go `&CachedData{}` (zero value). -/
def emptyCachedData : CachedData :=
  { ticker := none, depth := none, trades := [], timestamp := 0 }

/-- The per-symbol slice of the merger state: the `internalData` and
`externalData` map entries for one symbol. -/
structure MergerEntry where
  internalData : Option CachedData
  externalData : Option CachedData
  deriving Repr, DecidableEq

/-- `DataMerger.cacheData`, restricted to one side's `CachedData`.
Prepends trades and keeps 100; stores the latest ticker or depth; always
overwrites the single `Timestamp` with `time.Now().UnixMilli()` (`now`). -/
def cacheInto (now : Int) (data : MarketData) (c : CachedData) : CachedData :=
  let c :=
    if data.type == DataTypeTicker then
      match data.data with
      | Payload.ticker t => { c with ticker := some t }
      | _ => c
    else if data.type == DataTypeDepth then
      match data.data with
      | Payload.depth d => { c with depth := some d }
      | _ => c
    else if data.type == DataTypeTrade then
      match data.data with
      | Payload.trade t =>
        let ts := t :: c.trades
        let ts := if ts.length > 100 then ts.take 100 else ts
        { c with trades := ts }
      | _ => c
    else c
  { c with timestamp := now }

/-- `DataMerger.cacheData`: pick the side by `data.Source`, creating the
cache entry when absent. -/
def cacheData (now : Int) (st : MergerEntry) (data : MarketData) : MergerEntry :=
  if data.source == SourceInternal then
    { st with internalData := some (cacheInto now data (st.internalData.getD emptyCachedData)) }
  else
    { st with externalData := some (cacheInto now data (st.externalData.getD emptyCachedData)) }

/-- `DataMerger.isDataFresh`. -/
def isDataFresh (now timestamp : Int) : Bool :=
  now - timestamp < DataFreshnessThreshold

/-- The guard `c != nil && c.Ticker != nil && m.isDataFresh(c.Timestamp)`
of `mergeTickerPriority`, returning the ticker it extracts. -/
def freshTicker (now : Int) (c : Option CachedData) : Option Ticker :=
  match c with
  | none => none
  | some cd => if isDataFresh now cd.timestamp then cd.ticker else none

/-- The unconditional volume block of `mergeTickerPriority`:
`if c != nil && c.Ticker != nil { vol = c.Ticker.Volume24h }`, else the
zero value stands. -/
def cachedTickerVolume (c : Option CachedData) : ℚ :=
  match c with
  | none => 0
  | some cd =>
    match cd.ticker with
    | none => 0
    | some t => t.volume24h

/-- `DataMerger.mergeTickerPriority`. -/
def mergeTickerPriority (now : Int) (internal external : Option CachedData)
    (symbol : String) : Option TickerWithSource :=
  let chosen : Option (Ticker × String) :=
    match freshTicker now internal with
    | some it => some (it, SourceInternal)
    | none =>
      match freshTicker now external with
      | some et => some (et, SourceExternal)
      | none => none
  match chosen with
  | none => none
  | some (t, src) =>
    let iv := cachedTickerVolume internal
    let ev := cachedTickerVolume external
    some { symbol := symbol
           lastPrice := t.lastPrice
           lastPriceSource := src
           bidPrice := t.bidPrice
           askPrice := t.askPrice
           high24h := t.high24h
           low24h := t.low24h
           internalVolume24h := iv
           externalVolume24h := ev
           totalVolume24h := iv + ev
           timestamp := t.timestamp }

/-- `DataMerger.mergeTickerSupplement`: the source merely calls
`mergeTickerPriority`. -/
def mergeTickerSupplement (now : Int) (internal external : Option CachedData)
    (symbol : String) : Option TickerWithSource :=
  mergeTickerPriority now internal external symbol

/-- The guard `c != nil && c.Depth != nil && m.isDataFresh(c.Timestamp)`
of the depth merges. -/
def freshDepth (now : Int) (c : Option CachedData) : Option OrderBook :=
  match c with
  | none => none
  | some cd => if isDataFresh now cd.timestamp then cd.depth else none

/-- Tag price levels with their source, as the append loops do. -/
def toSourceLevels (src : String) (levels : List PriceLevel) :
    List PriceLevelWithSource :=
  levels.map (fun l => { price := l.price, amount := l.amount, source := src })

/-- Comparator of the bid sort (`Bids[i].Price > Bids[j].Price`),
as the non-strict relation insertion sort needs. -/
def bidBefore (a b : PriceLevelWithSource) : Prop := b.price ≤ a.price

/-- Comparator of the ask sort (`Asks[i].Price < Asks[j].Price`). -/
def askBefore (a b : PriceLevelWithSource) : Prop := a.price ≤ b.price

instance : DecidableRel bidBefore := fun a b => inferInstanceAs (Decidable (b.price ≤ a.price))
instance : DecidableRel askBefore := fun a b => inferInstanceAs (Decidable (a.price ≤ b.price))
instance : IsTotal PriceLevelWithSource bidBefore := ⟨fun a b => le_total b.price a.price⟩
instance : IsTrans PriceLevelWithSource bidBefore := ⟨fun _ _ _ h1 h2 => le_trans h2 h1⟩
instance : IsTotal PriceLevelWithSource askBefore := ⟨fun a b => le_total a.price b.price⟩
instance : IsTrans PriceLevelWithSource askBefore := ⟨fun _ _ _ h1 h2 => le_trans h1 h2⟩

/-- `DataMerger.mergeDepthPriority`.  The Go function never returns nil:
it builds a book from whichever sides are fresh (possibly neither), sorts,
and truncates each side to 100 levels. -/
def mergeDepthPriority (now : Int) (internal external : Option CachedData)
    (symbol : String) : OrderBookWithSource :=
  let idep := freshDepth now internal
  let edep := freshDepth now external
  let bids :=
    (match idep with
     | some d => toSourceLevels SourceInternal d.bids
     | none => []) ++
    (match edep with
     | some d => toSourceLevels SourceExternal d.bids
     | none => [])
  let asks :=
    (match idep with
     | some d => toSourceLevels SourceInternal d.asks
     | none => []) ++
    (match edep with
     | some d => toSourceLevels SourceExternal d.asks
     | none => [])
  let bids := List.insertionSort bidBefore bids
  let asks := List.insertionSort askBefore asks
  let bids := if bids.length > 100 then bids.take 100 else bids
  let asks := if asks.length > 100 then asks.take 100 else asks
  { symbol := symbol
    bids := bids
    asks := asks
    internalBidsCount := (match idep with | some d => d.bids.length | none => 0)
    externalBidsCount := (match edep with | some d => d.bids.length | none => 0)
    internalAsksCount := (match idep with | some d => d.asks.length | none => 0)
    externalAsksCount := (match edep with | some d => d.asks.length | none => 0)
    timestamp := now }

/-- `DataMerger.mergeDepthSupplement`: internal levels first; each side is
topped up with the external side only when it has fewer than 20 levels;
sorted, never truncated. -/
def mergeDepthSupplement (now : Int) (internal external : Option CachedData)
    (symbol : String) : OrderBookWithSource :=
  let idep := freshDepth now internal
  let edep := freshDepth now external
  let ibids :=
    (match idep with
     | some d => toSourceLevels SourceInternal d.bids
     | none => [])
  let iasks :=
    (match idep with
     | some d => toSourceLevels SourceInternal d.asks
     | none => [])
  let bids :=
    if ibids.length < 20 then
      ibids ++ (match edep with
                | some d => toSourceLevels SourceExternal d.bids
                | none => [])
    else ibids
  let asks :=
    if iasks.length < 20 then
      iasks ++ (match edep with
                | some d => toSourceLevels SourceExternal d.asks
                | none => [])
    else iasks
  { symbol := symbol
    bids := List.insertionSort bidBefore bids
    asks := List.insertionSort askBefore asks
    internalBidsCount := (match idep with | some d => d.bids.length | none => 0)
    externalBidsCount :=
      if ibids.length < 20 then
        (match edep with | some d => d.bids.length | none => 0)
      else 0
    internalAsksCount := (match idep with | some d => d.asks.length | none => 0)
    externalAsksCount :=
      if iasks.length < 20 then
        (match edep with | some d => d.asks.length | none => 0)
      else 0
    timestamp := now }

/-- `DataMerger.mergeTicker`: dispatch on strategy, wrap into a merged
`MarketData` (or nothing). -/
def mergeTicker (now : Int) (st : MergerEntry) (symbol : String)
    (config : SymbolConfig) : Option MarketData :=
  let merged :=
    if config.mergeStrategy == MergeStrategyPriority then
      mergeTickerPriority now st.internalData st.externalData symbol
    else if config.mergeStrategy == MergeStrategySupplement then
      mergeTickerSupplement now st.internalData st.externalData symbol
    else
      mergeTickerPriority now st.internalData st.externalData symbol
  match merged with
  | none => none
  | some t =>
    some { exchange := "merged", symbol := symbol, type := DataTypeTicker
           source := SourceMerged, timestamp := now, data := Payload.tickerWS t }

/-- `DataMerger.mergeDepth`. -/
def mergeDepth (now : Int) (st : MergerEntry) (symbol : String)
    (config : SymbolConfig) : Option MarketData :=
  let merged :=
    if config.mergeStrategy == MergeStrategyPriority then
      mergeDepthPriority now st.internalData st.externalData symbol
    else if config.mergeStrategy == MergeStrategySupplement then
      mergeDepthSupplement now st.internalData st.externalData symbol
    else
      mergeDepthPriority now st.internalData st.externalData symbol
  some { exchange := "merged", symbol := symbol, type := DataTypeDepth
         source := SourceMerged, timestamp := now, data := Payload.depthWS merged }

/-- `DataMerger.mergeData`: cache first, then merge by data kind. -/
def mergeData (now : Int) (config : SymbolConfig) (st : MergerEntry)
    (data : MarketData) : MergerEntry × Option MarketData :=
  let st := cacheData now st data
  if data.type == DataTypeTicker then (st, mergeTicker now st data.symbol config)
  else if data.type == DataTypeDepth then (st, mergeDepth now st data.symbol config)
  else (st, some data)

/-- `DataMerger.ProcessData`, for the entry of `data.Symbol`;
`config` is the `symbolConfigs` lookup. -/
def processData (now : Int) (config : Option SymbolConfig) (st : MergerEntry)
    (data : MarketData) : MergerEntry × Option MarketData :=
  match config with
  | none => (st, some data)
  | some cfg =>
    if cfg.mode == ModeInternalOnly then
      (st, if data.source == SourceInternal then some data else none)
    else if cfg.mode == ModeExternalOnly then
      (st, if data.source == SourceExternal then some data else none)
    else if cfg.mode == ModeHybrid then
      mergeData now cfg st data
    else
      (st, some data)

/- ===== services/processor/internal/storage/redis.go: pub/sub channels ===== -/

/-- Channel of `RedisStorage.SaveTicker`:
`fmt.Sprintf("%s%s:%s", constants.RedisChannelMarket, ticker.Symbol, constants.DataTypeTicker)`. -/
def saveTickerChannel (symbol : String) : String :=
  RedisChannelMarket ++ symbol ++ ":" ++ DataTypeTicker

/-- Channel of `RedisStorage.SaveDepth`. -/
def saveDepthChannel (symbol : String) : String :=
  RedisChannelMarket ++ symbol ++ ":" ++ DataTypeDepth

/-- Channel of `RedisStorage.SaveTrade`. -/
def saveTradeChannel (symbol : String) : String :=
  RedisChannelMarket ++ symbol ++ ":" ++ DataTypeTrade

/-- Channel the API-side bridge publishes tickers on
(`Broadcaster.BroadcastTicker`: `"market:" + ("ticker:" + symbol)`), the
shape its Redis subscription comment documents. -/
def broadcastTickerChannel (symbol : String) : String :=
  "market:" ++ ("ticker:" ++ symbol)

/- ===== services/processor/internal/handler/depth.go ===== -/

/-- Comparators of `DepthManager.sortDepth` on plain `PriceLevel`s. -/
def bidLevelBefore (a b : PriceLevel) : Prop := b.price ≤ a.price

def askLevelBefore (a b : PriceLevel) : Prop := a.price ≤ b.price

instance : DecidableRel bidLevelBefore := fun a b => inferInstanceAs (Decidable (b.price ≤ a.price))
instance : DecidableRel askLevelBefore := fun a b => inferInstanceAs (Decidable (a.price ≤ b.price))
instance : IsTotal PriceLevel bidLevelBefore := ⟨fun a b => le_total b.price a.price⟩
instance : IsTrans PriceLevel bidLevelBefore := ⟨fun _ _ _ h1 h2 => le_trans h2 h1⟩
instance : IsTotal PriceLevel askLevelBefore := ⟨fun a b => le_total a.price b.price⟩
instance : IsTrans PriceLevel askLevelBefore := ⟨fun _ _ _ h1 h2 => le_trans h1 h2⟩

/-- In-memory state of a `DepthManager` (symbol, bids, asks). -/
structure DepthManager where
  symbol : String
  bids : List PriceLevel
  asks : List PriceLevel
  deriving Repr, DecidableEq

/-- `NewDepthManager`. -/
def newDepthManager (symbol : String) : DepthManager :=
  { symbol := symbol, bids := [], asks := [] }

/-- `DepthManager.sortDepth`: bids by price descending, asks ascending. -/
def sortDepth (m : DepthManager) : DepthManager :=
  { m with
    bids := List.insertionSort bidLevelBefore m.bids
    asks := List.insertionSort askLevelBefore m.asks }

/-- `DepthManager.UpdateDepth`: full replace, then sort.  Returns the new
state together with the `OrderBook` handed to `storage.SaveDepth`. -/
def updateDepth (m : DepthManager) (depth : OrderBook) : DepthManager × OrderBook :=
  let m := { m with bids := depth.bids, asks := depth.asks }
  let m := sortDepth m
  (m, { symbol := m.symbol, bids := m.bids, asks := m.asks, timestamp := depth.timestamp })

/-- State transition part of `UpdateDepth`, for folding over sequences. -/
def updateDepthState (m : DepthManager) (depth : OrderBook) : DepthManager :=
  (updateDepth m depth).1

/- ===== common/utils time helpers (kline boundary arithmetic) ===== -/

def msPerMinute : Int := 60000
def msPerHour : Int := 3600000
def msPerDay : Int := 86400000

/-- `GetKlineOpenTime`, for a fixed-offset location `off` (milliseconds
east of UTC).  `time.Date(Y, M, D, h, m, 0, 0, loc)` is rebuilt from the
local calendar fields of `t + off`; Euclidean `%` and `/` reproduce Go's
calendar fields for every fixed offset. -/
def getKlineOpenTime (off : Int) (timestamp : Int) (interval : String) : Int :=
  let u := timestamp + off
  let dayStart := u - u % msPerDay
  let hourOfDay := (u % msPerDay) / msPerHour
  let minuteOfHour := (u % msPerHour) / msPerMinute
  match interval with
  | "1m" => dayStart + hourOfDay * msPerHour + minuteOfHour * msPerMinute - off
  | "5m" => dayStart + hourOfDay * msPerHour + (minuteOfHour / 5 * 5) * msPerMinute - off
  | "15m" => dayStart + hourOfDay * msPerHour + (minuteOfHour / 15 * 15) * msPerMinute - off
  | "30m" => dayStart + hourOfDay * msPerHour + (minuteOfHour / 30 * 30) * msPerMinute - off
  | "1h" => dayStart + hourOfDay * msPerHour - off
  | "4h" => dayStart + (hourOfDay / 4 * 4) * msPerHour - off
  | "1d" => dayStart - off
  | _ => timestamp

/-- `GetKlineCloseTime`: pure duration addition, minus one millisecond. -/
def getKlineCloseTime (openTime : Int) (interval : String) : Int :=
  match interval with
  | "1m" => openTime + msPerMinute - 1
  | "5m" => openTime + 5 * msPerMinute - 1
  | "15m" => openTime + 15 * msPerMinute - 1
  | "30m" => openTime + 30 * msPerMinute - 1
  | "1h" => openTime + msPerHour - 1
  | "4h" => openTime + 4 * msPerHour - 1
  | "1d" => openTime + msPerDay - 1
  | _ => openTime

/-- Period of an interval in milliseconds (spec: `close_time = open_time +
period − 1`). -/
def intervalPeriodMs (interval : String) : Int :=
  match interval with
  | "1m" => msPerMinute
  | "5m" => 5 * msPerMinute
  | "15m" => 15 * msPerMinute
  | "30m" => 30 * msPerMinute
  | "1h" => msPerHour
  | "4h" => 4 * msPerHour
  | "1d" => msPerDay
  | _ => 0

/-- The fixed interval set `KlineHandler` maintains. -/
def maintainedIntervals : List String := ["1m", "5m", "15m", "1h", "4h", "1d"]

/- ===== KlineAggregator (processor handler) ===== -/

/-- In-memory state of a `KlineAggregator`. -/
structure KlineAggregator where
  symbol : String
  interval : String
  currentKline : Option Kline
  deriving Repr, DecidableEq

/-- `NewKlineAggregator`. -/
def newKlineAggregator (symbol interval : String) : KlineAggregator :=
  { symbol := symbol, interval := interval, currentKline := none }

/-- `KlineAggregator.updateKline`: high/low via comparisons, close set to
the trade price, volume and counters accumulated. -/
def updateKline (k : Kline) (trade : Trade) : Kline :=
  let k := if trade.price > k.high then { k with high := trade.price } else k
  let k := if trade.price < k.low then { k with low := trade.price } else k
  { k with
    closePrice := trade.price
    volume := k.volume + trade.amount
    quoteVol := k.quoteVol + trade.price * trade.amount
    tradeNum := k.tradeNum + 1 }

/-- `KlineAggregator.AddTrade`, for location offset `off`.  Returns the
new state and the candle handed to `storage.SaveKline` (persisted), if
any.  Storage errors are logged and ignored, so the in-memory transition
is unconditional. -/
def addTrade (off : Int) (a : KlineAggregator) (trade : Trade) :
    KlineAggregator × Option Kline :=
  let openTime := getKlineOpenTime off trade.timestamp a.interval
  let startNew (persisted : Option Kline) : KlineAggregator × Option Kline :=
    let fresh : Kline :=
      { symbol := a.symbol
        interval := a.interval
        openTime := openTime
        closeTime := getKlineCloseTime openTime a.interval
        openPrice := trade.price
        high := trade.price
        low := trade.price
        closePrice := trade.price
        volume := 0
        quoteVol := 0
        tradeNum := 0 }
    ({ a with currentKline := some (updateKline fresh trade) }, persisted)
  match a.currentKline with
  | none => startNew none
  | some k =>
    if k.openTime = openTime then
      ({ a with currentKline := some (updateKline k trade) }, none)
    else
      startNew (some k)

/- ===== api websocket: SubscriptionManager, Hub, Client ===== -/

/-- Add a value to a set stored as a list (Go `map[...]bool` insert). -/
def addToSet (l : List Nat) (v : Nat) : List Nat :=
  if v ∈ l then l else v :: l

def addToSetStr (l : List String) (v : String) : List String :=
  if v ∈ l then l else v :: l

/-- Lookup in an association list modelling a Go map. -/
def assocFind (m : List (String × List Nat)) (k : String) : Option (List Nat) :=
  match m with
  | [] => none
  | (k1, v) :: rest => if k = k1 then some v else assocFind rest k

def assocFindC (m : List (Nat × List String)) (k : Nat) : Option (List String) :=
  match m with
  | [] => none
  | (k1, v) :: rest => if k = k1 then some v else assocFindC rest k

/-- Map insert-or-update for `channelSubscribers`. -/
def assocAddSub (m : List (String × List Nat)) (k : String) (v : Nat) :
    List (String × List Nat) :=
  match m with
  | [] => [(k, [v])]
  | (k1, vs) :: rest =>
    if k = k1 then (k1, addToSet vs v) :: rest else (k1, vs) :: assocAddSub rest k v

/-- Map insert-or-update for `clientSubscriptions`. -/
def assocAddCh (m : List (Nat × List String)) (k : Nat) (v : String) :
    List (Nat × List String) :=
  match m with
  | [] => [(k, [v])]
  | (k1, vs) :: rest =>
    if k = k1 then (k1, addToSetStr vs v) :: rest else (k1, vs) :: assocAddCh rest k v

/-- Remove a client from one channel's subscriber set, deleting the
channel entry when it becomes empty (`SubscriptionManager.Unsubscribe`,
first half, and the loop body of `UnsubscribeAll`). -/
def assocRemoveSub (m : List (String × List Nat)) (k : String) (v : Nat) :
    List (String × List Nat) :=
  match m with
  | [] => []
  | (k1, vs) :: rest =>
    if k = k1 then
      if (vs.filter (fun x => x ≠ v)).length = 0 then rest
      else (k1, vs.filter (fun x => x ≠ v)) :: rest
    else (k1, vs) :: assocRemoveSub rest k v

/-- Delete a client's own subscription record. -/
def assocEraseC (m : List (Nat × List String)) (k : Nat) : List (Nat × List String) :=
  match m with
  | [] => []
  | (k1, vs) :: rest => if k = k1 then rest else (k1, vs) :: assocEraseC rest k

/-- The bidirectional subscription index. -/
structure SubscriptionIndex where
  channelSubscribers : List (String × List Nat)
  clientSubscriptions : List (Nat × List String)
  deriving Repr, DecidableEq

def emptySubscriptionIndex : SubscriptionIndex :=
  { channelSubscribers := [], clientSubscriptions := [] }

/-- `SubscriptionManager.Subscribe`: record in both directions; no size
check of any kind. -/
def smSubscribe (sm : SubscriptionIndex) (client : Nat) (channel : String) :
    SubscriptionIndex :=
  { channelSubscribers := assocAddSub sm.channelSubscribers channel client
    clientSubscriptions := assocAddCh sm.clientSubscriptions client channel }

/-- `SubscriptionManager.UnsubscribeAll`. -/
def smUnsubscribeAll (sm : SubscriptionIndex) (client : Nat) : SubscriptionIndex :=
  match assocFindC sm.clientSubscriptions client with
  | none => sm
  | some channels =>
    { channelSubscribers :=
        channels.foldl (fun m ch => assocRemoveSub m ch client) sm.channelSubscribers
      clientSubscriptions := assocEraseC sm.clientSubscriptions client }

/-- `SubscriptionManager.GetSubscribers` (a copy of the set). -/
def smGetSubscribers (sm : SubscriptionIndex) (channel : String) : List Nat :=
  (assocFind sm.channelSubscribers channel).getD []

/-- `SubscriptionManager.GetClientSubscriptions`. -/
def smGetClientSubscriptions (sm : SubscriptionIndex) (client : Nat) : List String :=
  (assocFindC sm.clientSubscriptions client).getD []

/-- `Client.buildChannelName`. -/
def buildChannelName (channel symbol : String) : String :=
  if symbol ≠ "" then channel ++ ":" ++ symbol else channel

/-- `Client.handleSubscribe` effect on the index: builds the full channel
name and records it (the Go handler performs no limit check before
`c.hub.Subscribe`). -/
def handleSubscribe (sm : SubscriptionIndex) (client : Nat)
    (channel symbol : String) : SubscriptionIndex :=
  smSubscribe sm client (buildChannelName channel symbol)

/-- Capacity of a client's bounded send channel (`make(chan interface{}, 256)`). -/
def sendQueueCap : Nat := 256

/-- A connected client: its id and the contents of its buffered send
channel (message payloads abstracted to numbers). -/
structure HubClient where
  id : Nat
  send : List Nat
  deriving Repr, DecidableEq

/-- Hub state: registered clients plus the subscription index. -/
structure Hub where
  clients : List HubClient
  subs : SubscriptionIndex
  deriving Repr, DecidableEq

def findClient (h : Hub) (cid : Nat) : Option HubClient :=
  h.clients.find? (fun c => c.id = cid)

/-- `select { case client.send <- msg: ... }` succeeds iff the buffered
channel has room. -/
def hasRoom (h : Hub) (cid : Nat) : Bool :=
  match findClient h cid with
  | some c => c.send.length < sendQueueCap
  | none => false

/-- Append a message to one client's send queue. -/
def enqueueMsg (h : Hub) (cid : Nat) (msg : Nat) : Hub :=
  { h with
    clients := h.clients.map (fun c => if c.id = cid then { c with send := c.send ++ [msg] } else c) }

/-- The `unregister` branch of `Hub.Run`: drop the client (closing its
send channel destroys it) and remove all its subscriptions. -/
def unregister (h : Hub) (cid : Nat) : Hub :=
  if (h.clients.find? (fun c => c.id = cid)).isSome then
    { clients := h.clients.filter (fun c => c.id ≠ cid)
      subs := smUnsubscribeAll h.subs cid }
  else h

/-- `Hub.broadcastToChannel`: deliver to every subscriber whose queue has
room; the full ones are pushed on the unregister channel, which the same
`Run` loop drains right after. -/
def broadcastToChannel (h : Hub) (channel : String) (msg : Nat) : Hub :=
  let subscribers := smGetSubscribers h.subs channel
  let delivered := subscribers.filter (fun cid => hasRoom h cid)
  let fullOnes := subscribers.filter (fun cid => !hasRoom h cid)
  let h := delivered.foldl (fun h cid => enqueueMsg h cid msg) h
  fullOnes.foldl (fun h cid => unregister h cid) h

/-- `Client.sendError` / `Client.sendResponse`: enqueue when there is
room, otherwise log and DROP the frame — the client stays registered. -/
def sendError (h : Hub) (cid : Nat) (msg : Nat) : Hub :=
  if hasRoom h cid then enqueueMsg h cid msg else h

/-- Registered client ids. -/
def hubIds (h : Hub) : List Nat := h.clients.map HubClient.id

/-- The channel keys of the subscription index are distinct (Go map). -/
def keysNodupSubs (sm : SubscriptionIndex) : Prop :=
  (sm.channelSubscribers.map Prod.fst).Nodup

/-- Bidirectional consistency of the index, restricted to one client:
whenever a channel entry lists the client, the client's own record lists
the channel. -/
def bidiFor (sm : SubscriptionIndex) (cid : Nat) : Prop :=
  ∀ p ∈ sm.channelSubscribers, cid ∈ p.2 → p.1 ∈ smGetClientSubscriptions sm cid

instance (sm : SubscriptionIndex) : Decidable (keysNodupSubs sm) :=
  inferInstanceAs (Decidable (List.Nodup _))

instance (sm : SubscriptionIndex) (cid : Nat) : Decidable (bidiFor sm cid) :=
  inferInstanceAs (Decidable (∀ p ∈ _, _ → _))

/- ===== Concrete sample data used by witnesses and counterexamples ===== -/

/-- A side is stale for the merge when it is absent or its single
timestamp fails `isDataFresh`. -/
def sideStale (now : Int) (c : Option CachedData) : Bool :=
  match c with
  | none => true
  | some cd => !isDataFresh now cd.timestamp

def tkInternalStale : Ticker :=
  { symbol := "BTCUSDT", lastPrice := 45000, bidPrice := 44999, askPrice := 45001
    high24h := 46000, low24h := 44000, volume24h := 100, timestamp := 900 }

def tkExternalStale : Ticker :=
  { symbol := "BTCUSDT", lastPrice := 45010, bidPrice := 45008, askPrice := 45012
    high24h := 46100, low24h := 44100, volume24h := 50, timestamp := 1100 }

def tkIncoming : Ticker :=
  { symbol := "BTCUSDT", lastPrice := 45100, bidPrice := 45099, askPrice := 45101
    high24h := 46200, low24h := 44200, volume24h := 60, timestamp := 9990 }

/-- Internal side cached long ago (stale at `now = 10000`). -/
def cachedInternalStale : CachedData :=
  { ticker := some tkInternalStale, depth := none, trades := [], timestamp := 1000 }

/-- External side cached long ago (stale at `now = 10000`). -/
def cachedExternalStale : CachedData :=
  { ticker := some tkExternalStale, depth := none, trades := [], timestamp := 1200 }

def entryBothStale : MergerEntry :=
  { internalData := some cachedInternalStale, externalData := some cachedExternalStale }

def hybridPriorityConfig : SymbolConfig :=
  { symbol := "BTCUSDT", mode := "HYBRID", primarySource := "internal"
    externalSource := "binance", mergeStrategy := "priority", enable := true }

/-- An external ticker record arriving at the merger. -/
def incomingExternalTicker : MarketData :=
  { exchange := "binance", symbol := "BTCUSDT", type := "ticker"
    source := "external", timestamp := 9990, data := Payload.ticker tkIncoming }

/-- Fresh internal side for the C6 witness (`now = 10000`). -/
def cachedInternalFresh : CachedData :=
  { ticker := some tkInternalStale, depth := none, trades := [], timestamp := 9900 }

/-- A sample order book held by a cache side. -/
def sampleDepthBook : OrderBook :=
  { symbol := "BTCUSDT"
    bids := [{ price := 44999, amount := 3/2 }]
    asks := [{ price := 45001, amount := 2 }]
    timestamp := 800 }

/-- Cache side whose ticker and depth were stored long ago. -/
def cachedSideOld : CachedData :=
  { ticker := some tkInternalStale, depth := some sampleDepthBook
    trades := [], timestamp := 1000 }

def sampleTrade : Trade :=
  { symbol := "BTCUSDT", tradeID := "42", price := 45000, amount := 1/2
    side := "buy", timestamp := 1700000045123 }

def sampleTradeData : MarketData :=
  { exchange := "internal", symbol := "BTCUSDT", type := "trade"
    source := "internal", timestamp := 9900, data := Payload.trade sampleTrade }

/-- An update carrying 101 bid levels. -/
def bigBook : OrderBook :=
  { symbol := "BTCUSDT"
    bids := (List.range 101).map (fun i => { price := (i : ℚ), amount := 1 })
    asks := []
    timestamp := 0 }

/-- 21 distinct symbols for the subscription-limit check. -/
def c4Symbols : List String :=
  ["S01", "S02", "S03", "S04", "S05", "S06", "S07", "S08", "S09", "S10",
   "S11", "S12", "S13", "S14", "S15", "S16", "S17", "S18", "S19", "S20", "S21"]

/-- A hub with one client whose queue is full and one with room, both
subscribed to the same channel. -/
def hubW : Hub :=
  { clients := [{ id := 1, send := List.replicate 256 0 }, { id := 2, send := [] }]
    subs :=
      { channelSubscribers := [("ticker:BTCUSDT", [1, 2])]
        clientSubscriptions := [(1, ["ticker:BTCUSDT"]), (2, ["ticker:BTCUSDT"])] } }

/-- A `MarketData` wrapper around a trade, as produced by the adapters. -/
def tradeMD (e s src : String) (ts : Int) (tr : Trade) : MarketData :=
  { exchange := e, symbol := s, type := DataTypeTrade, source := src
    timestamp := ts, data := Payload.trade tr }

/- ===== Helper lemmas ===== -/

theorem updateDepthState_bids_length (m : DepthManager) (d : OrderBook) :
    (updateDepthState m d).bids.length = d.bids.length :=
  (List.perm_insertionSort bidLevelBefore d.bids).length_eq

theorem updateDepthState_asks_length (m : DepthManager) (d : OrderBook) :
    (updateDepthState m d).asks.length = d.asks.length :=
  (List.perm_insertionSort askLevelBefore d.asks).length_eq

theorem freshTicker_none_of_stale (now : Int) (c : Option CachedData)
    (h : sideStale now c = true) : freshTicker now c = none := by
  cases c with
  | none => rfl
  | some cd =>
    simp only [sideStale, Bool.not_eq_true'] at h
    simp [freshTicker, h]

theorem freshDepth_none_of_stale (now : Int) (c : Option CachedData)
    (h : sideStale now c = true) : freshDepth now c = none := by
  cases c with
  | none => rfl
  | some cd =>
    simp only [sideStale, Bool.not_eq_true'] at h
    simp [freshDepth, h]

theorem mergeTickerPriority_isSome_internal (now : Int)
    (internal external : Option CachedData) (symbol : String) (t : Ticker)
    (h : freshTicker now internal = some t) :
    (mergeTickerPriority now internal external symbol).isSome = true := by
  simp [mergeTickerPriority, h]

theorem mergeTickerPriority_isSome_external (now : Int)
    (internal external : Option CachedData) (symbol : String) (t : Ticker)
    (h : freshTicker now external = some t) :
    (mergeTickerPriority now internal external symbol).isSome = true := by
  cases hi : freshTicker now internal <;> simp [mergeTickerPriority, hi, h]

theorem mergeTicker_eq_priority (now : Int) (st : MergerEntry) (symbol : String)
    (cfg : SymbolConfig) : mergeTicker now st symbol cfg =
    (match mergeTickerPriority now st.internalData st.externalData symbol with
     | none => none
     | some t =>
       some { exchange := "merged", symbol := symbol, type := DataTypeTicker
              source := SourceMerged, timestamp := now, data := Payload.tickerWS t }) := by
  unfold mergeTicker
  by_cases h1 : cfg.mergeStrategy = MergeStrategyPriority <;>
    by_cases h2 : cfg.mergeStrategy = MergeStrategySupplement <;>
      simp [h1, h2, mergeTickerSupplement]

theorem cacheInto_ticker (now : Int) (data : MarketData) (c : CachedData)
    (t : Ticker) (htype : data.type = DataTypeTicker)
    (hdata : data.data = Payload.ticker t) :
    cacheInto now data c = { c with ticker := some t, timestamp := now } := by
  simp [cacheInto, htype, hdata, DataTypeTicker]

theorem isDataFresh_now (now : Int) : isDataFresh now now = true := by
  simp only [isDataFresh, DataFreshnessThreshold, decide_eq_true_eq]
  omega

theorem mergeTickerPriority_internal_chosen (now : Int)
    (internal external : Option CachedData) (symbol : String) (t : Ticker)
    (h : freshTicker now internal = some t) :
    mergeTickerPriority now internal external symbol = some
      { symbol := symbol, lastPrice := t.lastPrice, lastPriceSource := SourceInternal
        bidPrice := t.bidPrice, askPrice := t.askPrice, high24h := t.high24h
        low24h := t.low24h, internalVolume24h := cachedTickerVolume internal
        externalVolume24h := cachedTickerVolume external
        totalVolume24h := cachedTickerVolume internal + cachedTickerVolume external
        timestamp := t.timestamp } := by
  simp [mergeTickerPriority, h]

theorem mergeTickerPriority_external_chosen (now : Int)
    (internal external : Option CachedData) (symbol : String) (t : Ticker)
    (hi : freshTicker now internal = none) (h : freshTicker now external = some t) :
    mergeTickerPriority now internal external symbol = some
      { symbol := symbol, lastPrice := t.lastPrice, lastPriceSource := SourceExternal
        bidPrice := t.bidPrice, askPrice := t.askPrice, high24h := t.high24h
        low24h := t.low24h, internalVolume24h := cachedTickerVolume internal
        externalVolume24h := cachedTickerVolume external
        totalVolume24h := cachedTickerVolume internal + cachedTickerVolume external
        timestamp := t.timestamp } := by
  simp [mergeTickerPriority, hi, h]

/- ===== Claim theorems ===== -/

/-- Claim C1 (code bug exhibit): `RedisStorage.SaveTicker`, `SaveDepth`
and `SaveTrade` publish on `market:{symbol}:{kind}` — the symbol first —
while the claim, the spec, and the API service's own `Broadcaster`
(comment and `Broadcast*` helpers) use `market:{kind}:{symbol}`; clients
subscribe to `{kind}:{symbol}` channels, so records published by the
storage layer never reach them. -/
theorem C1_publish_channel_shape :
    saveTickerChannel "BTCUSDT" = "market:BTCUSDT:ticker" ∧
    saveDepthChannel "BTCUSDT" = "market:BTCUSDT:depth" ∧
    saveTradeChannel "BTCUSDT" = "market:BTCUSDT:trade" ∧
    saveTickerChannel "BTCUSDT" ≠ "market:ticker:BTCUSDT" ∧
    broadcastTickerChannel "BTCUSDT" = "market:ticker:BTCUSDT" := by
  refine ⟨rfl, rfl, rfl, ?_, rfl⟩
  decide

/-- Claim C7: the supplement ticker strategy is extensionally equal to
the priority strategy — `mergeTickerSupplement` simply calls
`mergeTickerPriority` on the same arguments. -/
theorem C7_supplement_equals_priority (now : Int)
    (internal external : Option CachedData) (symbol : String) :
    mergeTickerSupplement now internal external symbol =
      mergeTickerPriority now internal external symbol := rfl

/-- Claim C3 — amended: after any sequence of full-replace updates the
`DepthManager` holds bids sorted by price descending and asks sorted by
price ascending, but performs no truncation: each side has exactly as
many levels as the latest update supplied (the ≤ 100 bound of the claim
is not enforced anywhere in `UpdateDepth`/`sortDepth`). -/
theorem C3_depth_sorted_untruncated (updates : List OrderBook) (symbol : String) :
    ((updates.foldl updateDepthState (newDepthManager symbol)).bids.Pairwise
      (fun a b => b.price ≤ a.price)) ∧
    ((updates.foldl updateDepthState (newDepthManager symbol)).asks.Pairwise
      (fun a b => a.price ≤ b.price)) ∧
    (updates.foldl updateDepthState (newDepthManager symbol)).bids.length =
      (updates.getLastD { symbol := symbol, bids := [], asks := [], timestamp := 0 }).bids.length ∧
    (updates.foldl updateDepthState (newDepthManager symbol)).asks.length =
      (updates.getLastD { symbol := symbol, bids := [], asks := [], timestamp := 0 }).asks.length := by
  induction updates using List.reverseRecOn with
  | nil => simp [newDepthManager]
  | append_singleton us u ih =>
    rw [List.foldl_append]
    refine ⟨List.sorted_insertionSort bidLevelBefore u.bids,
      List.sorted_insertionSort askLevelBefore u.asks, ?_, ?_⟩
    · simp only [List.foldl_cons, List.foldl_nil]
      rw [updateDepthState_bids_length]
      simp
    · simp only [List.foldl_cons, List.foldl_nil]
      rw [updateDepthState_asks_length]
      simp

/-- Claim C3 — counterexample: one full-replace update carrying 101 bid
levels leaves a book whose bid side has 101 levels, violating the claimed
≤ 100 bound. -/
theorem C3_counterexample :
    ([bigBook].foldl updateDepthState (newDepthManager "BTCUSDT")).bids.length = 101 ∧
    ¬ ([bigBook].foldl updateDepthState (newDepthManager "BTCUSDT")).bids.length ≤ 100 := by
  have h : ([bigBook].foldl updateDepthState (newDepthManager "BTCUSDT")).bids.length = 101 := by
    simp only [List.foldl_cons, List.foldl_nil]
    rw [updateDepthState_bids_length]
    decide
  exact ⟨h, by rw [h]; decide⟩

/-- Claim C9: for every interval the kline handler maintains, every trade
timestamp and every fixed-offset location, the candle boundaries satisfy
open ≤ t ≤ close and close = open + period − 1. -/
theorem C9_candle_boundary_alignment (off t : Int) (interval : String)
    (h : interval ∈ maintainedIntervals) :
    getKlineOpenTime off t interval ≤ t ∧
    t ≤ getKlineCloseTime (getKlineOpenTime off t interval) interval ∧
    getKlineCloseTime (getKlineOpenTime off t interval) interval =
      getKlineOpenTime off t interval + intervalPeriodMs interval - 1 := by
  simp only [maintainedIntervals, List.mem_cons, List.not_mem_nil, or_false] at h
  rcases h with h | h | h | h | h | h <;> subst h <;>
    (refine ⟨?_, ?_, ?_⟩ <;>
      simp only [getKlineOpenTime, getKlineCloseTime, intervalPeriodMs,
        msPerMinute, msPerHour, msPerDay] <;> omega)

/-- Witness for C9 at interval 1m, timestamp 1700000045123, offset 0. -/
theorem C9_witness :
    "1m" ∈ maintainedIntervals ∧
    (getKlineOpenTime 0 1700000045123 "1m" ≤ 1700000045123 ∧
     1700000045123 ≤ getKlineCloseTime (getKlineOpenTime 0 1700000045123 "1m") "1m" ∧
     getKlineCloseTime (getKlineOpenTime 0 1700000045123 "1m") "1m" =
       getKlineOpenTime 0 1700000045123 "1m" + intervalPeriodMs "1m" - 1) :=
  ⟨by decide, C9_candle_boundary_alignment 0 1700000045123 "1m" (by decide)⟩

/-- Claim C8: when the computed open time differs from the open candle's
(or there is no open candle), `AddTrade` persists the open candle and
starts a fresh one that, once the trade is applied, has
open = high = low = close = price, volume = amount, n_trades = 1; a trade
of the same period persists nothing. -/
theorem C8_kline_rollover (off : Int) (a : KlineAggregator) (trade : Trade) :
    ((∀ k, a.currentKline = some k →
        k.openTime ≠ getKlineOpenTime off trade.timestamp a.interval) →
      (addTrade off a trade).2 = a.currentKline ∧
      (addTrade off a trade).1.currentKline = some
        { symbol := a.symbol, interval := a.interval
          openTime := getKlineOpenTime off trade.timestamp a.interval
          closeTime := getKlineCloseTime
            (getKlineOpenTime off trade.timestamp a.interval) a.interval
          openPrice := trade.price, high := trade.price, low := trade.price
          closePrice := trade.price, volume := trade.amount
          quoteVol := trade.price * trade.amount, tradeNum := 1 }) ∧
    (∀ k, a.currentKline = some k →
      k.openTime = getKlineOpenTime off trade.timestamp a.interval →
      (addTrade off a trade).2 = none) := by
  constructor
  · intro hnew
    cases ha : a.currentKline with
    | none => simp [addTrade, ha, updateKline]
    | some k =>
      have hne := hnew k ha
      simp [addTrade, ha, hne, updateKline]
  · intro k hk heq
    simp [addTrade, hk, heq]

/-- Witness for C8: first ever trade of a fresh aggregator — nothing is
persisted, and the in-memory candle carries the trade; and a second trade
in the same period still persists nothing. -/
theorem C8_witness :
    ((addTrade 0 (newKlineAggregator "BTCUSDT" "1m") sampleTrade).2 =
        (newKlineAggregator "BTCUSDT" "1m").currentKline ∧
      (addTrade 0 (newKlineAggregator "BTCUSDT" "1m") sampleTrade).1.currentKline = some
        { symbol := (newKlineAggregator "BTCUSDT" "1m").symbol
          interval := (newKlineAggregator "BTCUSDT" "1m").interval
          openTime := getKlineOpenTime 0 sampleTrade.timestamp
            (newKlineAggregator "BTCUSDT" "1m").interval
          closeTime := getKlineCloseTime
            (getKlineOpenTime 0 sampleTrade.timestamp
              (newKlineAggregator "BTCUSDT" "1m").interval)
            (newKlineAggregator "BTCUSDT" "1m").interval
          openPrice := sampleTrade.price, high := sampleTrade.price
          low := sampleTrade.price, closePrice := sampleTrade.price
          volume := sampleTrade.amount
          quoteVol := sampleTrade.price * sampleTrade.amount, tradeNum := 1 }) :=
  (C8_kline_rollover 0 (newKlineAggregator "BTCUSDT" "1m") sampleTrade).1
    (by intro k hk; exact Option.noConfusion hk)

/-- Claim C2 — amended: when both cached sides are stale the ticker merge
helper indeed returns nothing, but the depth merge returns an order book
with empty bid and ask sides (a record, not nothing); moreover
`ProcessData` caches the incoming record first, refreshing that side's
timestamp, so processing a well-formed incoming ticker in hybrid mode
always emits a merged record, even when both sides were stale before. -/
theorem C2_stale_merge_amended (now : Int) (internal external : Option CachedData)
    (symbol : String) (cfg : SymbolConfig) (st : MergerEntry) (data : MarketData)
    (t : Ticker)
    (h1 : sideStale now internal = true) (h2 : sideStale now external = true)
    (hmode : cfg.mode = ModeHybrid) (htype : data.type = DataTypeTicker)
    (hdata : data.data = Payload.ticker t) :
    mergeTickerPriority now internal external symbol = none ∧
    (mergeDepthPriority now internal external symbol).bids = [] ∧
    (mergeDepthPriority now internal external symbol).asks = [] ∧
    (processData now (some cfg) st data).2.isSome = true := by
  have hti := freshTicker_none_of_stale now internal h1
  have hte := freshTicker_none_of_stale now external h2
  have hdi := freshDepth_none_of_stale now internal h1
  have hde := freshDepth_none_of_stale now external h2
  refine ⟨by simp [mergeTickerPriority, hti, hte],
    by simp [mergeDepthPriority, hdi, hde],
    by simp [mergeDepthPriority, hdi, hde], ?_⟩
  have hm1 : (cfg.mode == ModeInternalOnly) = false := by
    rw [hmode]; decide
  have hm2 : (cfg.mode == ModeExternalOnly) = false := by
    rw [hmode]; decide
  have hm3 : (cfg.mode == ModeHybrid) = true := by
    rw [hmode]; decide
  have hty : (data.type == DataTypeTicker) = true := by
    rw [htype]; decide
  simp only [processData, hm1, hm2, hm3, Bool.false_eq_true, if_false, if_true,
    mergeData, hty, mergeTicker_eq_priority]
  rcases hsrc : (data.source == SourceInternal) with _ | _
  · have hcache : (cacheData now st data).externalData =
        some { (st.externalData.getD emptyCachedData) with ticker := some t, timestamp := now } := by
      simp [cacheData, hsrc, cacheInto_ticker now data _ t htype hdata]
    have hfe : freshTicker now (cacheData now st data).externalData = some t := by
      rw [hcache]
      simp [freshTicker, isDataFresh_now]
    have := mergeTickerPriority_isSome_external now
      (cacheData now st data).internalData (cacheData now st data).externalData
      data.symbol t hfe
    cases hmp : mergeTickerPriority now (cacheData now st data).internalData
        (cacheData now st data).externalData data.symbol with
    | none => rw [hmp] at this; simp at this
    | some r => simp [hmp]
  · have hcache : (cacheData now st data).internalData =
        some { (st.internalData.getD emptyCachedData) with ticker := some t, timestamp := now } := by
      simp [cacheData, hsrc, cacheInto_ticker now data _ t htype hdata]
    have hfi : freshTicker now (cacheData now st data).internalData = some t := by
      rw [hcache]
      simp [freshTicker, isDataFresh_now]
    have := mergeTickerPriority_isSome_internal now
      (cacheData now st data).internalData (cacheData now st data).externalData
      data.symbol t hfi
    cases hmp : mergeTickerPriority now (cacheData now st data).internalData
        (cacheData now st data).externalData data.symbol with
    | none => rw [hmp] at this; simp at this
    | some r => simp [hmp]

/-- Claim C2 — counterexample to the claim as stated: both cached sides
are stale (cached at 1000 and 1200, now = 10000), yet processing an
incoming external ticker emits a merged record rather than nothing,
because caching refreshes the external side's timestamp first. -/
theorem C2_counterexample :
    sideStale 10000 entryBothStale.internalData = true ∧
    sideStale 10000 entryBothStale.externalData = true ∧
    (processData 10000 (some hybridPriorityConfig) entryBothStale
      incomingExternalTicker).2 ≠ none := by
  refine ⟨by decide, by decide, ?_⟩
  decide

/-- Witness for the amended C2 at the concrete stale state. -/
theorem C2_witness :
    (sideStale 10000 (some cachedInternalStale) = true ∧
     sideStale 10000 (some cachedExternalStale) = true) ∧
    (mergeTickerPriority 10000 (some cachedInternalStale) (some cachedExternalStale)
        "BTCUSDT" = none ∧
     (mergeDepthPriority 10000 (some cachedInternalStale) (some cachedExternalStale)
        "BTCUSDT").bids = [] ∧
     (mergeDepthPriority 10000 (some cachedInternalStale) (some cachedExternalStale)
        "BTCUSDT").asks = [] ∧
     (processData 10000 (some hybridPriorityConfig) entryBothStale
        incomingExternalTicker).2.isSome = true) :=
  ⟨⟨by decide, by decide⟩,
    C2_stale_merge_amended 10000 (some cachedInternalStale) (some cachedExternalStale)
      "BTCUSDT" hybridPriorityConfig entryBothStale incomingExternalTicker tkIncoming
      (by decide) (by decide) rfl rfl rfl⟩

/-- Claim C6: the priority ticker merge copies top-of-book and 24h stats
from the fresh internal side, tagging `last_price_source = internal`;
otherwise from the fresh external side with tag external; the two volume
fields come from their caches unconditionally (no freshness check) and
the total is their sum. -/
theorem C6_priority_ticker_merge (now : Int) (internal external : Option CachedData)
    (symbol : String) :
    (∀ ic it, internal = some ic → ic.ticker = some it →
      isDataFresh now ic.timestamp = true →
      ∃ r, mergeTickerPriority now internal external symbol = some r ∧
        r.lastPriceSource = SourceInternal ∧
        r.lastPrice = it.lastPrice ∧ r.bidPrice = it.bidPrice ∧
        r.askPrice = it.askPrice ∧ r.high24h = it.high24h ∧ r.low24h = it.low24h ∧
        r.internalVolume24h = it.volume24h ∧
        r.externalVolume24h = cachedTickerVolume external ∧
        r.totalVolume24h = r.internalVolume24h + r.externalVolume24h) ∧
    (freshTicker now internal = none →
      ∀ ec et, external = some ec → ec.ticker = some et →
      isDataFresh now ec.timestamp = true →
      ∃ r, mergeTickerPriority now internal external symbol = some r ∧
        r.lastPriceSource = SourceExternal ∧
        r.lastPrice = et.lastPrice ∧ r.bidPrice = et.bidPrice ∧
        r.askPrice = et.askPrice ∧ r.high24h = et.high24h ∧ r.low24h = et.low24h ∧
        r.externalVolume24h = et.volume24h ∧
        r.internalVolume24h = cachedTickerVolume internal ∧
        r.totalVolume24h = r.internalVolume24h + r.externalVolume24h) := by
  constructor
  · intro ic it hic hit hfresh
    have hft : freshTicker now internal = some it := by
      simp [freshTicker, hic, hit, hfresh]
    have hvol : cachedTickerVolume internal = it.volume24h := by
      simp [cachedTickerVolume, hic, hit]
    refine ⟨_, mergeTickerPriority_internal_chosen now internal external symbol it hft,
      rfl, rfl, rfl, rfl, rfl, rfl, hvol, rfl, rfl⟩
  · intro hi ec et hec het hfresh
    have hft : freshTicker now external = some et := by
      simp [freshTicker, hec, het, hfresh]
    have hvol : cachedTickerVolume external = et.volume24h := by
      simp [cachedTickerVolume, hec, het]
    refine ⟨_, mergeTickerPriority_external_chosen now internal external symbol et hi hft,
      rfl, rfl, rfl, rfl, rfl, rfl, hvol, rfl, rfl⟩

/-- Witness for C6: fresh internal side, stale external side — the
external volume is still populated from the (stale) external cache. -/
theorem C6_witness :
    isDataFresh 10000 cachedInternalFresh.timestamp = true ∧
    (∃ r, mergeTickerPriority 10000 (some cachedInternalFresh)
        (some cachedExternalStale) "BTCUSDT" = some r ∧
      r.lastPriceSource = SourceInternal ∧
      r.lastPrice = tkInternalStale.lastPrice ∧
      r.bidPrice = tkInternalStale.bidPrice ∧
      r.askPrice = tkInternalStale.askPrice ∧
      r.high24h = tkInternalStale.high24h ∧ r.low24h = tkInternalStale.low24h ∧
      r.internalVolume24h = tkInternalStale.volume24h ∧
      r.externalVolume24h = cachedTickerVolume (some cachedExternalStale) ∧
      r.totalVolume24h = r.internalVolume24h + r.externalVolume24h) :=
  ⟨by decide,
    (C6_priority_ticker_merge 10000 (some cachedInternalFresh)
        (some cachedExternalStale) "BTCUSDT").1
      cachedInternalFresh tkInternalStale rfl rfl (by decide)⟩

/-- Claim C10: a cache side's freshness is one timestamp overwritten by
every cached record of any kind; caching a trade at `tradeTime` keeps the
old ticker and depth but refreshes the shared timestamp, so a merge at
`now` (with `now − tradeTime < 5000`) treats both the old ticker and the
old depth as fresh, even though the side was stale before the trade. -/
theorem C10_shared_freshness (now tradeTime : Int) (c : CachedData)
    (anyData : MarketData) (e s src : String) (tts : Int) (tr : Trade)
    (external : Option CachedData) (symbol : String) (tk : Ticker)
    (hfreshTrade : now - tradeTime < DataFreshnessThreshold)
    (hstaleBefore : ¬(now - c.timestamp < DataFreshnessThreshold))
    (htk : c.ticker = some tk) :
    (cacheInto tradeTime anyData c).timestamp = tradeTime ∧
    (cacheInto tradeTime (tradeMD e s src tts tr) c).ticker = c.ticker ∧
    (cacheInto tradeTime (tradeMD e s src tts tr) c).depth = c.depth ∧
    freshTicker now (some (cacheInto tradeTime (tradeMD e s src tts tr) c)) = c.ticker ∧
    freshDepth now (some (cacheInto tradeTime (tradeMD e s src tts tr) c)) = c.depth ∧
    (∃ r, mergeTickerPriority now
        (some (cacheInto tradeTime (tradeMD e s src tts tr) c)) external symbol = some r ∧
      r.lastPriceSource = SourceInternal ∧ r.lastPrice = tk.lastPrice) := by
  have hfreshb : isDataFresh now tradeTime = true := by
    simp only [isDataFresh, decide_eq_true_eq]
    exact hfreshTrade
  have hticker : (cacheInto tradeTime (tradeMD e s src tts tr) c).ticker = c.ticker := by
    simp [cacheInto, tradeMD, DataTypeTrade, DataTypeTicker, DataTypeDepth]
  have hdepth : (cacheInto tradeTime (tradeMD e s src tts tr) c).depth = c.depth := by
    simp [cacheInto, tradeMD, DataTypeTrade, DataTypeTicker, DataTypeDepth]
  have hts : (cacheInto tradeTime (tradeMD e s src tts tr) c).timestamp = tradeTime := rfl
  have hft : freshTicker now (some (cacheInto tradeTime (tradeMD e s src tts tr) c)) =
      c.ticker := by
    simp [freshTicker, hts, hfreshb, hticker]
  refine ⟨rfl, hticker, hdepth, hft, ?_, ?_⟩
  · simp [freshDepth, hts, hfreshb, hdepth]
  · have hft2 : freshTicker now (some (cacheInto tradeTime (tradeMD e s src tts tr) c)) =
        some tk := by rw [hft, htk]
    exact ⟨_, mergeTickerPriority_internal_chosen now _ external symbol tk hft2, rfl, rfl⟩

/-- Witness for C10: the side last updated at 1000 is stale at
now = 10000; a trade cached at 9900 makes the old ticker and depth count
as fresh again. -/
theorem C10_witness :
    (10000 - 9900 < DataFreshnessThreshold ∧
     ¬(10000 - cachedSideOld.timestamp < DataFreshnessThreshold) ∧
     cachedSideOld.ticker = some tkInternalStale) ∧
    ((cacheInto 9900 incomingExternalTicker cachedSideOld).timestamp = 9900 ∧
     (cacheInto 9900 (tradeMD "internal" "BTCUSDT" "internal" 9900 sampleTrade)
        cachedSideOld).ticker = cachedSideOld.ticker ∧
     (cacheInto 9900 (tradeMD "internal" "BTCUSDT" "internal" 9900 sampleTrade)
        cachedSideOld).depth = cachedSideOld.depth ∧
     freshTicker 10000 (some (cacheInto 9900
        (tradeMD "internal" "BTCUSDT" "internal" 9900 sampleTrade) cachedSideOld)) =
       cachedSideOld.ticker ∧
     freshDepth 10000 (some (cacheInto 9900
        (tradeMD "internal" "BTCUSDT" "internal" 9900 sampleTrade) cachedSideOld)) =
       cachedSideOld.depth ∧
     (∃ r, mergeTickerPriority 10000
          (some (cacheInto 9900
            (tradeMD "internal" "BTCUSDT" "internal" 9900 sampleTrade) cachedSideOld))
          none "BTCUSDT" = some r ∧
        r.lastPriceSource = SourceInternal ∧
        r.lastPrice = tkInternalStale.lastPrice)) :=
  ⟨⟨by decide, by decide, rfl⟩,
    C10_shared_freshness 10000 9900 cachedSideOld incomingExternalTicker
      "internal" "BTCUSDT" "internal" 9900 sampleTrade none "BTCUSDT" tkInternalStale
      (by decide) (by decide) rfl⟩

/-- Claim C4 (code bug exhibit): neither `Client.handleSubscribe` nor
`SubscriptionManager.Subscribe` consults `MaxSubscriptionsPerConn`; 21
subscribe requests from one client are all recorded, exceeding the
declared limit of 20. -/
theorem C4_no_subscription_limit :
    (smGetClientSubscriptions
        (c4Symbols.foldl (fun sm s => handleSubscribe sm 1 DataTypeTicker s)
          emptySubscriptionIndex) 1).length = 21 ∧
    MaxSubscriptionsPerConn < 21 := by
  decide

/- ===== Lemmas on the subscription index, towards C5 ===== -/

theorem assocFind_mem (m : List (String × List Nat)) (k : String) (v : List Nat)
    (h : assocFind m k = some v) : (k, v) ∈ m := by
  induction m with
  | nil => simp [assocFind] at h
  | cons p rest ih =>
    obtain ⟨k1, vs⟩ := p
    by_cases hk : k = k1
    · subst hk
      simp [assocFind] at h
      simp [h]
    · simp [assocFind, hk] at h
      exact List.mem_cons_of_mem _ (ih h)

theorem keys_assocRemoveSub_sublist (m : List (String × List Nat)) (ch : String)
    (x : Nat) :
    ((assocRemoveSub m ch x).map Prod.fst).Sublist (m.map Prod.fst) := by
  induction m with
  | nil => simp [assocRemoveSub]
  | cons p rest ih =>
    obtain ⟨k1, vs⟩ := p
    by_cases hk : ch = k1
    · subst hk
      simp only [assocRemoveSub, if_pos rfl]
      by_cases hlen : (vs.filter (fun y => y ≠ x)).length = 0
      · simp only [if_pos hlen, List.map_cons]
        exact (List.sublist_cons_self _ _).trans (List.Sublist.refl _)
      · simp only [if_neg hlen, List.map_cons]
        exact List.Sublist.cons₂ _ (List.Sublist.refl _)
    · simp only [assocRemoveSub, if_neg hk, List.map_cons]
      exact List.Sublist.cons₂ _ ih

theorem lookup_none_of_key_not_mem (m : List (String × List Nat)) (k : String)
    (hk : k ∉ m.map Prod.fst) : assocFind m k = none := by
  cases hfind : assocFind m k with
  | none => rfl
  | some v => exact absurd (List.mem_map_of_mem Prod.fst (assocFind_mem m k v hfind)) hk

theorem lookup_assocRemoveSub_shrink (m : List (String × List Nat)) (ch ch2 : String)
    (x c : Nat) (hkeys : (m.map Prod.fst).Nodup)
    (h : c ∈ (assocFind (assocRemoveSub m ch x) ch2).getD []) :
    c ∈ (assocFind m ch2).getD [] := by
  induction m with
  | nil => simp [assocRemoveSub, assocFind] at h
  | cons p rest ih =>
    obtain ⟨k1, vs⟩ := p
    simp only [List.map_cons, List.nodup_cons] at hkeys
    obtain ⟨hk1, hrest⟩ := hkeys
    rw [assocRemoveSub] at h
    by_cases hch : ch = k1
    · rw [if_pos hch] at h
      subst hch
      split at h
      next hlen =>
        by_cases hch2 : ch2 = ch
        · subst hch2
          rw [lookup_none_of_key_not_mem rest ch2 hk1] at h
          simp at h
        · rw [assocFind, if_neg hch2]
          exact h
      next hlen =>
        rw [assocFind] at h
        rw [assocFind]
        by_cases hch2 : ch2 = ch
        · rw [if_pos hch2] at h
          rw [if_pos hch2]
          simp only [Option.getD_some] at h ⊢
          exact (List.mem_filter.mp h).1
        · rw [if_neg hch2] at h
          rw [if_neg hch2]
          exact h
    · rw [if_neg hch] at h
      rw [assocFind] at h
      rw [assocFind]
      by_cases hch2 : ch2 = k1
      · rw [if_pos hch2] at h
        rw [if_pos hch2]
        exact h
      · rw [if_neg hch2] at h
        rw [if_neg hch2]
        exact ih hrest h

theorem lookup_assocRemoveSub_self (m : List (String × List Nat)) (ch : String)
    (x : Nat) (hkeys : (m.map Prod.fst).Nodup) :
    x ∉ (assocFind (assocRemoveSub m ch x) ch).getD [] := by
  induction m with
  | nil => simp [assocRemoveSub, assocFind]
  | cons p rest ih =>
    obtain ⟨k1, vs⟩ := p
    simp only [List.map_cons, List.nodup_cons] at hkeys
    obtain ⟨hk1, hrest⟩ := hkeys
    rw [assocRemoveSub]
    by_cases hch : ch = k1
    · rw [if_pos hch]
      subst hch
      split
      next hlen =>
        rw [lookup_none_of_key_not_mem rest ch hk1]
        simp
      next hlen =>
        rw [assocFind, if_pos rfl]
        simp only [Option.getD_some]
        intro hmem
        have h2 := (List.mem_filter.mp hmem).2
        simp at h2
    · rw [if_neg hch]
      rw [assocFind, if_neg hch]
      exact ih hrest

theorem lookup_foldl_removeSub_shrink (l : List String)
    (m : List (String × List Nat)) (ch2 : String) (x c : Nat)
    (hkeys : (m.map Prod.fst).Nodup)
    (h : c ∈ (assocFind (l.foldl (fun m ch => assocRemoveSub m ch x) m) ch2).getD []) :
    c ∈ (assocFind m ch2).getD [] := by
  induction l generalizing m with
  | nil => exact h
  | cons ch rest ih =>
    simp only [List.foldl_cons] at h
    have hkeys2 : ((assocRemoveSub m ch x).map Prod.fst).Nodup :=
      (keys_assocRemoveSub_sublist m ch x).nodup hkeys
    exact lookup_assocRemoveSub_shrink m ch ch2 x c hkeys (ih _ hkeys2 h)

theorem keys_foldl_removeSub_sublist (l : List String)
    (m : List (String × List Nat)) (x : Nat) :
    ((l.foldl (fun m ch => assocRemoveSub m ch x) m).map Prod.fst).Sublist
      (m.map Prod.fst) := by
  induction l generalizing m with
  | nil => exact List.Sublist.refl _
  | cons ch rest ih =>
    simp only [List.foldl_cons]
    exact (ih _).trans (keys_assocRemoveSub_sublist m ch x)

theorem mem_entry_after_removeSub (m : List (String × List Nat)) (ch : String)
    (x : Nat) (p : String × List Nat) (h : p ∈ assocRemoveSub m ch x) :
    ∃ vs, (p.1, vs) ∈ m ∧ p.2 ⊆ vs := by
  induction m with
  | nil => simp [assocRemoveSub] at h
  | cons q rest ih =>
    obtain ⟨k1, vs⟩ := q
    rw [assocRemoveSub] at h
    by_cases hch : ch = k1
    · rw [if_pos hch] at h
      split at h
      next hlen =>
        exact ⟨p.2, List.mem_cons_of_mem _ (by simpa using h), List.Subset.refl _⟩
      next hlen =>
        rcases List.mem_cons.mp h with heq | hmem
        · refine ⟨vs, ?_, ?_⟩
          · rw [heq]
            exact List.mem_cons_self _ _
          · rw [heq]
            intro a ha
            exact (List.mem_filter.mp ha).1
        · exact ⟨p.2, List.mem_cons_of_mem _ (by simpa using hmem), List.Subset.refl _⟩
    · rw [if_neg hch] at h
      rcases List.mem_cons.mp h with heq | hmem
      · exact ⟨vs, by rw [heq]; exact List.mem_cons_self _ _,
          by rw [heq]; exact List.Subset.refl _⟩
      · obtain ⟨vs2, hm, hs⟩ := ih hmem
        exact ⟨vs2, List.mem_cons_of_mem _ hm, hs⟩

theorem mem_entry_after_fold_removeSub (l : List String)
    (m : List (String × List Nat)) (x : Nat) (p : String × List Nat)
    (h : p ∈ l.foldl (fun m ch => assocRemoveSub m ch x) m) :
    ∃ vs, (p.1, vs) ∈ m ∧ p.2 ⊆ vs := by
  induction l generalizing m with
  | nil => exact ⟨p.2, by simpa using h, List.Subset.refl _⟩
  | cons ch rest ih =>
    simp only [List.foldl_cons] at h
    obtain ⟨vs1, hm1, hs1⟩ := ih _ h
    obtain ⟨vs2, hm2, hs2⟩ := mem_entry_after_removeSub m ch x (p.1, vs1) hm1
    exact ⟨vs2, hm2, hs1.trans hs2⟩

theorem lookupC_after_erase (m : List (Nat × List String)) (x cid : Nat)
    (hne : cid ≠ x) : assocFindC (assocEraseC m x) cid = assocFindC m cid := by
  induction m with
  | nil => rfl
  | cons q rest ih =>
    obtain ⟨k1, vs⟩ := q
    rw [assocEraseC]
    by_cases hx : x = k1
    · rw [if_pos hx]
      rw [assocFindC, if_neg (by rw [← hx]; exact hne)]
    · rw [if_neg hx]
      rw [assocFindC, assocFindC]
      by_cases hc : cid = k1
      · rw [if_pos hc, if_pos hc]
      · rw [if_neg hc, if_neg hc]
        exact ih

theorem keysNodup_unsubscribeAll (sm : SubscriptionIndex) (x : Nat)
    (hkeys : keysNodupSubs sm) : keysNodupSubs (smUnsubscribeAll sm x) := by
  unfold smUnsubscribeAll
  cases hf : assocFindC sm.clientSubscriptions x with
  | none => exact hkeys
  | some channels =>
    exact (keys_foldl_removeSub_sublist channels sm.channelSubscribers x).nodup hkeys

theorem getSubscribers_unsubscribeAll_shrink (sm : SubscriptionIndex) (x : Nat)
    (ch2 : String) (c : Nat) (hkeys : keysNodupSubs sm)
    (h : c ∈ smGetSubscribers (smUnsubscribeAll sm x) ch2) :
    c ∈ smGetSubscribers sm ch2 := by
  unfold smUnsubscribeAll at h
  cases hf : assocFindC sm.clientSubscriptions x with
  | none =>
    rw [hf] at h
    exact h
  | some channels =>
    rw [hf] at h
    exact lookup_foldl_removeSub_shrink channels sm.channelSubscribers ch2 x c hkeys h

theorem bidiFor_unsubscribeAll (sm : SubscriptionIndex) (x cid : Nat)
    (hne : x ≠ cid) (hb : bidiFor sm cid) : bidiFor (smUnsubscribeAll sm x) cid := by
  unfold smUnsubscribeAll
  cases hf : assocFindC sm.clientSubscriptions x with
  | none => exact hb
  | some channels =>
    intro p hp hcid
    obtain ⟨vs, hvm, hsub⟩ := mem_entry_after_fold_removeSub channels _ x p hp
    have hold := hb (p.1, vs) hvm (hsub hcid)
    show p.1 ∈ (assocFindC (assocEraseC sm.clientSubscriptions x) cid).getD []
    rw [lookupC_after_erase sm.clientSubscriptions x cid (fun he => hne he.symm)]
    exact hold

theorem unsubscribeAll_self_not_mem (sm : SubscriptionIndex) (cid : Nat)
    (ch2 : String) (hkeys : keysNodupSubs sm) (hb : bidiFor sm cid) :
    cid ∉ smGetSubscribers (smUnsubscribeAll sm cid) ch2 := by
  cases hf : assocFindC sm.clientSubscriptions cid with
  | none =>
    have hsm : smUnsubscribeAll sm cid = sm := by
      unfold smUnsubscribeAll
      rw [hf]
    rw [hsm]
    intro hmem
    cases hfind : assocFind sm.channelSubscribers ch2 with
    | none =>
      unfold smGetSubscribers at hmem
      rw [hfind] at hmem
      simp at hmem
    | some vs =>
      unfold smGetSubscribers at hmem
      rw [hfind] at hmem
      simp only [Option.getD_some] at hmem
      have := hb (ch2, vs) (assocFind_mem _ _ _ hfind) hmem
      unfold smGetClientSubscriptions at this
      rw [hf] at this
      simp at this
  | some channels =>
    have hsm : smUnsubscribeAll sm cid =
        { channelSubscribers :=
            channels.foldl (fun m ch => assocRemoveSub m ch cid) sm.channelSubscribers
          clientSubscriptions := assocEraseC sm.clientSubscriptions cid } := by
      unfold smUnsubscribeAll
      rw [hf]
    rw [hsm]
    intro hmem
    unfold smGetSubscribers at hmem
    simp only at hmem
    have hmem0 : cid ∈ smGetSubscribers sm ch2 :=
      lookup_foldl_removeSub_shrink channels sm.channelSubscribers ch2 cid cid hkeys hmem
    cases hfind : assocFind sm.channelSubscribers ch2 with
    | none =>
      unfold smGetSubscribers at hmem0
      rw [hfind] at hmem0
      simp at hmem0
    | some vs =>
      unfold smGetSubscribers at hmem0
      rw [hfind] at hmem0
      simp only [Option.getD_some] at hmem0
      have hch2 := hb (ch2, vs) (assocFind_mem _ _ _ hfind) hmem0
      unfold smGetClientSubscriptions at hch2
      rw [hf] at hch2
      simp only [Option.getD_some] at hch2
      obtain ⟨l1, l2, hsplit⟩ := List.append_of_mem hch2
      rw [hsplit, List.foldl_append, List.foldl_cons] at hmem
      have hkeys1 : ((l1.foldl (fun m ch => assocRemoveSub m ch cid)
          sm.channelSubscribers).map Prod.fst).Nodup :=
        (keys_foldl_removeSub_sublist l1 sm.channelSubscribers cid).nodup hkeys
      have hkeys2 : ((assocRemoveSub (l1.foldl (fun m ch => assocRemoveSub m ch cid)
          sm.channelSubscribers) ch2 cid).map Prod.fst).Nodup :=
        (keys_assocRemoveSub_sublist _ ch2 cid).nodup hkeys1
      have hshrunk := lookup_foldl_removeSub_shrink l2 _ ch2 cid cid hkeys2 hmem
      exact lookup_assocRemoveSub_self _ ch2 cid hkeys1 hshrunk

/- ===== Hub-level lemmas towards C5 ===== -/

theorem enqueue_map_id (c : HubClient) (cid msg : Nat) :
    (if c.id = cid then { c with send := c.send ++ [msg] } else c).id = c.id := by
  by_cases hc : c.id = cid <;> simp [hc]

theorem hubIds_enqueueMsg (h : Hub) (cid msg : Nat) :
    hubIds (enqueueMsg h cid msg) = hubIds h := by
  simp only [hubIds, enqueueMsg, List.map_map]
  congr 1
  funext c
  exact enqueue_map_id c cid msg

theorem subs_enqueueMsg (h : Hub) (cid msg : Nat) :
    (enqueueMsg h cid msg).subs = h.subs := rfl

theorem subs_foldl_enqueue (l : List Nat) (h : Hub) (msg : Nat) :
    (l.foldl (fun h cid => enqueueMsg h cid msg) h).subs = h.subs := by
  induction l generalizing h with
  | nil => rfl
  | cons d rest ih =>
    simp only [List.foldl_cons]
    rw [ih, subs_enqueueMsg]

theorem hubIds_foldl_enqueue (l : List Nat) (h : Hub) (msg : Nat) :
    hubIds (l.foldl (fun h cid => enqueueMsg h cid msg) h) = hubIds h := by
  induction l generalizing h with
  | nil => rfl
  | cons d rest ih =>
    simp only [List.foldl_cons]
    rw [ih, hubIds_enqueueMsg]

theorem find?_map_enqueue (l : List HubClient) (cid cid' msg : Nat) :
    (l.map (fun c => if c.id = cid' then { c with send := c.send ++ [msg] } else c)).find?
        (fun c => c.id = cid) =
      (l.find? (fun c => c.id = cid)).map
        (fun c => if c.id = cid' then { c with send := c.send ++ [msg] } else c) := by
  induction l with
  | nil => rfl
  | cons c rest ih =>
    simp only [List.map_cons]
    by_cases hc : c.id = cid
    · rw [List.find?_cons_of_pos _ (by rw [enqueue_map_id]; simp [hc]),
        List.find?_cons_of_pos _ (by simp [hc])]
      simp
    · rw [List.find?_cons_of_neg _ (by rw [enqueue_map_id]; simp [hc]),
        List.find?_cons_of_neg _ (by simp [hc])]
      exact ih

theorem findClient_enqueueMsg (h : Hub) (cid cid' msg : Nat) :
    findClient (enqueueMsg h cid' msg) cid =
      (findClient h cid).map
        (fun c => if c.id = cid' then { c with send := c.send ++ [msg] } else c) :=
  find?_map_enqueue h.clients cid cid' msg

theorem findClient_id (h : Hub) (cid : Nat) (c : HubClient)
    (hf : findClient h cid = some c) : c.id = cid := by
  have := List.find?_some hf
  simpa using this

theorem findClient_enqueue_other (h : Hub) (cid cid' msg : Nat) (hne : cid' ≠ cid) :
    findClient (enqueueMsg h cid' msg) cid = findClient h cid := by
  rw [findClient_enqueueMsg]
  cases hf : findClient h cid with
  | none => rfl
  | some c =>
    have hcid := findClient_id h cid c hf
    have hcc : ¬c.id = cid' := by
      rw [hcid]
      exact fun he => hne he.symm
    simp [hcc]

theorem findClient_enqueue_self (h : Hub) (cid msg : Nat) :
    findClient (enqueueMsg h cid msg) cid =
      (findClient h cid).map (fun c => { c with send := c.send ++ [msg] }) := by
  rw [findClient_enqueueMsg]
  cases hf : findClient h cid with
  | none => rfl
  | some c =>
    have hcid := findClient_id h cid c hf
    simp [hcid]

theorem findClient_foldl_enqueue_not_mem (l : List Nat) (h : Hub) (cid msg : Nat)
    (hnm : cid ∉ l) :
    findClient (l.foldl (fun h c => enqueueMsg h c msg) h) cid = findClient h cid := by
  induction l generalizing h with
  | nil => rfl
  | cons d rest ih =>
    simp only [List.foldl_cons]
    have hd : d ≠ cid := fun he => hnm (he ▸ List.mem_cons_self d rest)
    rw [ih _ (fun hm => hnm (List.mem_cons_of_mem d hm)),
      findClient_enqueue_other h cid d msg hd]

theorem findClient_foldl_enqueue_mem (l : List Nat) (h : Hub) (cid msg : Nat)
    (hnodup : l.Nodup) (hmem : cid ∈ l) :
    findClient (l.foldl (fun h c => enqueueMsg h c msg) h) cid =
      (findClient h cid).map (fun c => { c with send := c.send ++ [msg] }) := by
  induction l generalizing h with
  | nil => simp at hmem
  | cons d rest ih =>
    simp only [List.foldl_cons]
    rcases List.mem_cons.mp hmem with heq | hrest
    · subst heq
      have hnm : cid ∉ rest := (List.nodup_cons.mp hnodup).1
      rw [findClient_foldl_enqueue_not_mem rest _ cid msg hnm,
        findClient_enqueue_self]
    · have hd : d ≠ cid := by
        intro he
        subst he
        exact (List.nodup_cons.mp hnodup).1 hrest
      rw [ih _ (List.nodup_cons.mp hnodup).2 hrest,
        findClient_enqueue_other h cid d msg hd]

theorem find?_filter_of_imp (l : List HubClient) (p q : HubClient → Bool)
    (himp : ∀ a, p a = true → q a = true) :
    (l.filter q).find? p = l.find? p := by
  induction l with
  | nil => rfl
  | cons a rest ih =>
    by_cases hq : q a = true
    · rw [List.filter_cons_of_pos hq]
      by_cases hp : p a = true
      · rw [List.find?_cons_of_pos _ hp, List.find?_cons_of_pos _ hp]
      · rw [List.find?_cons_of_neg _ (by simpa using hp),
          List.find?_cons_of_neg _ (by simpa using hp)]
        exact ih
    · have hp : p a = false := by
        cases hpa : p a with
        | false => rfl
        | true => exact absurd (himp a hpa) hq
      rw [List.filter_cons_of_neg (by simpa using hq),
        List.find?_cons_of_neg _ (by simp [hp]), ih]

theorem findClient_unregister_other (h : Hub) (x cid : Nat) (hne : x ≠ cid) :
    findClient (unregister h x) cid = findClient h cid := by
  unfold unregister
  by_cases hf : (h.clients.find? (fun c => c.id = x)).isSome
  · rw [if_pos hf]
    show (h.clients.filter (fun c => c.id ≠ x)).find? (fun c => c.id = cid) = _
    exact find?_filter_of_imp h.clients _ _ (by
      intro a ha
      simp only [decide_eq_true_eq] at ha
      simp only [ha, ne_eq, decide_eq_true_eq]
      omega)
  · rw [if_neg hf]

theorem hubIds_unregister_sub (h : Hub) (x cid : Nat)
    (hmem : cid ∈ hubIds (unregister h x)) : cid ∈ hubIds h := by
  unfold unregister at hmem
  by_cases hf : (h.clients.find? (fun c => c.id = x)).isSome
  · rw [if_pos hf] at hmem
    simp only [hubIds, List.mem_map] at hmem ⊢
    obtain ⟨c, hc, hcid⟩ := hmem
    exact ⟨c, List.mem_of_mem_filter hc, hcid⟩
  · rw [if_neg hf] at hmem
    exact hmem

theorem hubIds_unregister_other (h : Hub) (x cid : Nat) (hne : x ≠ cid)
    (hmem : cid ∈ hubIds h) : cid ∈ hubIds (unregister h x) := by
  unfold unregister
  by_cases hf : (h.clients.find? (fun c => c.id = x)).isSome
  · rw [if_pos hf]
    simp only [hubIds, List.mem_map] at hmem ⊢
    obtain ⟨c, hc, hcid⟩ := hmem
    refine ⟨c, List.mem_filter.mpr ⟨hc, ?_⟩, hcid⟩
    simp only [hcid, ne_eq, decide_eq_true_eq]
    omega
  · rw [if_neg hf]
    exact hmem

theorem hubIds_unregister_self (h : Hub) (cid : Nat) :
    cid ∉ hubIds (unregister h cid) := by
  unfold unregister
  by_cases hf : (h.clients.find? (fun c => c.id = cid)).isSome
  · rw [if_pos hf]
    intro hmem
    simp only [hubIds, List.mem_map] at hmem
    obtain ⟨c, hc, hcid⟩ := hmem
    have := (List.mem_filter.mp hc).2
    simp [hcid] at this
  · rw [if_neg hf]
    intro hmem
    simp only [hubIds, List.mem_map] at hmem
    obtain ⟨c, hc, hcid⟩ := hmem
    have hnone := Option.not_isSome_iff_eq_none.mp hf
    have := List.find?_eq_none.mp hnone c hc
    simp [hcid] at this

theorem subs_unregister_eq (h : Hub) (x : Nat) :
    (unregister h x).subs = smUnsubscribeAll h.subs x ∨ unregister h x = h := by
  unfold unregister
  by_cases hf : (h.clients.find? (fun c => c.id = x)).isSome
  · rw [if_pos hf]
    exact Or.inl rfl
  · rw [if_neg hf]
    exact Or.inr rfl

theorem subs_unregister_of_isSome (st : Hub) (x : Nat)
    (hsome : (st.clients.find? (fun c => c.id = x)).isSome = true) :
    (unregister st x).subs = smUnsubscribeAll st.subs x := by
  unfold unregister
  rw [if_pos hsome]

theorem getSubscribers_nodup (sm : SubscriptionIndex) (ch : String)
    (hsub : ∀ p ∈ sm.channelSubscribers, p.2.Nodup) :
    (smGetSubscribers sm ch).Nodup := by
  unfold smGetSubscribers
  cases hf : assocFind sm.channelSubscribers ch with
  | none => simp
  | some vs => simpa using hsub (ch, vs) (assocFind_mem _ _ _ hf)

theorem findClient_foldl_unregister_not_mem (l : List Nat) (h : Hub) (cid : Nat)
    (hnm : cid ∉ l) :
    findClient (l.foldl (fun h x => unregister h x) h) cid = findClient h cid := by
  induction l generalizing h with
  | nil => rfl
  | cons d rest ih =>
    simp only [List.foldl_cons]
    have hd : d ≠ cid := fun he => hnm (he ▸ List.mem_cons_self d rest)
    rw [ih _ (fun hm => hnm (List.mem_cons_of_mem d hm)),
      findClient_unregister_other h d cid hd]

theorem isSome_find?_of_mem_hubIds (st : Hub) (cid : Nat)
    (hmem : cid ∈ hubIds st) :
    (st.clients.find? (fun c => c.id = cid)).isSome = true := by
  simp only [hubIds, List.mem_map] at hmem
  obtain ⟨c, hc, hcid⟩ := hmem
  rw [Option.isSome_iff_exists]
  have : ∃ a ∈ st.clients, (fun c => decide (c.id = cid)) a = true :=
    ⟨c, hc, by simp [hcid]⟩
  cases hfind : st.clients.find? (fun c => c.id = cid) with
  | none =>
    obtain ⟨a, ha, hpa⟩ := this
    have := List.find?_eq_none.mp hfind a ha
    exact absurd hpa this
  | some a => exact ⟨a, rfl⟩

theorem regInvariant_foldl_unregister (l : List Nat) (st : Hub) (cid : Nat)
    (hnm : cid ∉ l)
    (hI : cid ∈ hubIds st ∧ bidiFor st.subs cid ∧ keysNodupSubs st.subs) :
    cid ∈ hubIds (l.foldl (fun h x => unregister h x) st) ∧
    bidiFor (l.foldl (fun h x => unregister h x) st).subs cid ∧
    keysNodupSubs (l.foldl (fun h x => unregister h x) st).subs := by
  induction l generalizing st with
  | nil => exact hI
  | cons d rest ih =>
    simp only [List.foldl_cons]
    have hd : d ≠ cid := fun he => hnm (he ▸ List.mem_cons_self d rest)
    apply ih _ (fun hm => hnm (List.mem_cons_of_mem d hm))
    obtain ⟨hm, hb2, hk2⟩ := hI
    refine ⟨hubIds_unregister_other st d cid hd hm, ?_, ?_⟩
    · rcases subs_unregister_eq st d with he | he
      · rw [he]
        exact bidiFor_unsubscribeAll _ d cid hd hb2
      · rw [he]
        exact hb2
    · rcases subs_unregister_eq st d with he | he
      · rw [he]
        exact keysNodup_unsubscribeAll _ d hk2
      · rw [he]
        exact hk2

theorem gone_foldl_unregister (l : List Nat) (st : Hub) (cid : Nat) (ch2 : String)
    (hJ : cid ∉ hubIds st ∧ cid ∉ smGetSubscribers st.subs ch2 ∧
      keysNodupSubs st.subs) :
    cid ∉ hubIds (l.foldl (fun h x => unregister h x) st) ∧
    cid ∉ smGetSubscribers (l.foldl (fun h x => unregister h x) st).subs ch2 := by
  induction l generalizing st with
  | nil => exact ⟨hJ.1, hJ.2.1⟩
  | cons d rest ih =>
    simp only [List.foldl_cons]
    apply ih
    obtain ⟨h1, h2, h3⟩ := hJ
    refine ⟨fun hc => h1 (hubIds_unregister_sub st d cid hc), ?_, ?_⟩
    · rcases subs_unregister_eq st d with he | he
      · rw [he]
        exact fun hc => h2 (getSubscribers_unsubscribeAll_shrink _ d ch2 cid h3 hc)
      · rw [he]
        exact h2
    · rcases subs_unregister_eq st d with he | he
      · rw [he]
        exact keysNodup_unsubscribeAll _ d h3
      · rw [he]
        exact h3

/-- Claim C5 — amended: on a broadcast, a subscriber whose bounded send
queue has room receives the message; a subscriber whose queue is full is
unregistered — removed from the client set and from the whole
subscription index — while the other subscribers still receive; HOWEVER,
`error`/acknowledgement frames sent by the client handler
(`sendError`/`sendResponse`) are dropped without disconnecting when the
queue is full, so the claim's "never drops a message without
disconnecting" does not hold for those frames. -/
theorem C5_backpressure_amended (h : Hub) (ch ch2 : String) (msg cid : Nat)
    (hkeys : keysNodupSubs h.subs)
    (hsubnodup : ∀ p ∈ h.subs.channelSubscribers, p.2.Nodup)
    (hbi : bidiFor h.subs cid)
    (hmem : cid ∈ smGetSubscribers h.subs ch) :
    (hasRoom h cid = true →
      findClient (broadcastToChannel h ch msg) cid =
        (findClient h cid).map (fun c => { c with send := c.send ++ [msg] })) ∧
    (hasRoom h cid = false → cid ∈ hubIds h →
      cid ∉ hubIds (broadcastToChannel h ch msg) ∧
      cid ∉ smGetSubscribers (broadcastToChannel h ch msg).subs ch2) ∧
    (hasRoom h cid = false → sendError h cid msg = h) := by
  have hbc : broadcastToChannel h ch msg =
      ((smGetSubscribers h.subs ch).filter (fun c => !hasRoom h c)).foldl
        (fun h cid => unregister h cid)
        (((smGetSubscribers h.subs ch).filter (fun c => hasRoom h c)).foldl
          (fun h cid => enqueueMsg h cid msg) h) := rfl
  have hsubnd : (smGetSubscribers h.subs ch).Nodup :=
    getSubscribers_nodup h.subs ch hsubnodup
  refine ⟨?_, ?_, ?_⟩
  · intro hroom
    have hdel : cid ∈ (smGetSubscribers h.subs ch).filter (fun c => hasRoom h c) :=
      List.mem_filter.mpr ⟨hmem, hroom⟩
    have hnotfull : cid ∉ (smGetSubscribers h.subs ch).filter (fun c => !hasRoom h c) := by
      intro hf2
      have := (List.mem_filter.mp hf2).2
      rw [hroom] at this
      simp at this
    rw [hbc, findClient_foldl_unregister_not_mem _ _ _ hnotfull,
      findClient_foldl_enqueue_mem _ _ _ _ (hsubnd.filter _) hdel]
  · intro hfull hreg
    have hfullmem : cid ∈ (smGetSubscribers h.subs ch).filter (fun c => !hasRoom h c) :=
      List.mem_filter.mpr ⟨hmem, by rw [hfull]; rfl⟩
    have hfullnd : ((smGetSubscribers h.subs ch).filter (fun c => !hasRoom h c)).Nodup :=
      hsubnd.filter _
    obtain ⟨l1, l2, hsplit⟩ := List.append_of_mem hfullmem
    have hnd2 := hsplit ▸ hfullnd
    have hnl1 : cid ∉ l1 := fun hc =>
      (List.disjoint_of_nodup_append hnd2) hc (List.mem_cons_self _ _)
    have hnl2 : cid ∉ l2 := (List.nodup_cons.mp hnd2.of_append_right).1
    rw [hbc, hsplit, List.foldl_append, List.foldl_cons]
    have hsubs0 := subs_foldl_enqueue
      ((smGetSubscribers h.subs ch).filter (fun c => hasRoom h c)) h msg
    have hids0 := hubIds_foldl_enqueue
      ((smGetSubscribers h.subs ch).filter (fun c => hasRoom h c)) h msg
    have hI1 := regInvariant_foldl_unregister l1 _ cid hnl1
      ⟨by rw [hids0]; exact hreg, by rw [hsubs0]; exact hbi, by rw [hsubs0]; exact hkeys⟩
    obtain ⟨hm1, hb1, hk1⟩ := hI1
    have hsome := isSome_find?_of_mem_hubIds _ cid hm1
    have hsubsU := subs_unregister_of_isSome _ cid hsome
    apply gone_foldl_unregister
    refine ⟨hubIds_unregister_self _ cid, ?_, ?_⟩
    · rw [hsubsU]
      exact unsubscribeAll_self_not_mem _ cid ch2 hk1 hb1
    · rw [hsubsU]
      exact keysNodup_unsubscribeAll _ cid hk1
  · intro hfull
    unfold sendError
    rw [if_neg (by simp [hfull])]

set_option maxRecDepth 10000 in
/-- Claim C5 — counterexample to the claim as stated: client 1's send
queue is full; `sendError` (the path used for error and acknowledgement
frames) drops the frame and leaves the hub unchanged, so the fan-out
layer drops a message for the client without disconnecting it. -/
theorem C5_counterexample :
    hasRoom hubW 1 = false ∧
    sendError hubW 1 99 = hubW ∧
    1 ∈ hubIds (sendError hubW 1 99) := by
  refine ⟨by decide, by decide, by decide⟩

set_option maxRecDepth 10000 in
/-- Witness for the amended C5: on the concrete hub, broadcasting removes
the full client 1 from the client set and the subscription index, drops
its error frames without touching the hub, and still delivers the message
to client 2. -/
theorem C5_witness :
    (hasRoom hubW 1 = false ∧ hasRoom hubW 2 = true ∧
     1 ∈ smGetSubscribers hubW.subs "ticker:BTCUSDT" ∧
     2 ∈ smGetSubscribers hubW.subs "ticker:BTCUSDT" ∧ 1 ∈ hubIds hubW) ∧
    (1 ∉ hubIds (broadcastToChannel hubW "ticker:BTCUSDT" 99) ∧
     1 ∉ smGetSubscribers (broadcastToChannel hubW "ticker:BTCUSDT" 99).subs
        "ticker:BTCUSDT") ∧
    sendError hubW 1 99 = hubW ∧
    findClient (broadcastToChannel hubW "ticker:BTCUSDT" 99) 2 =
      (findClient hubW 2).map (fun c => { c with send := c.send ++ [99] }) :=
  ⟨⟨by decide, by decide, by decide, by decide, by decide⟩,
   (C5_backpressure_amended hubW "ticker:BTCUSDT" "ticker:BTCUSDT" 99 1
      (by decide) (by decide) (by decide) (by decide)).2.1 (by decide) (by decide),
   (C5_backpressure_amended hubW "ticker:BTCUSDT" "ticker:BTCUSDT" 99 1
      (by decide) (by decide) (by decide) (by decide)).2.2 (by decide),
   (C5_backpressure_amended hubW "ticker:BTCUSDT" "ticker:BTCUSDT" 99 2
      (by decide) (by decide) (by decide) (by decide)).1 (by decide)⟩

end MarketSystem
